import Mathlib

/-!
Verification development for the agent-orchestration core of the Rollizr
repository (src/utils/claude-client.js, src/agents/base-agent.js,
src/agents/index.js + config, and the orchestrator module).

Shallow embedding conventions:
* JavaScript JSON values are modelled by the inductive `Json`; a possibly
  `undefined` JavaScript value is `Option Json` (`none` = undefined).
* `JSON.parse` is an external runtime capability (not repository code); it is
  modelled as a parameter `p : String → Option Json` (`none` = parse throws).
  The extraction strategy built around it (`ClaudeClient.parseJSON`) is
  translated from the source.
* The external generation call (Anthropic SDK) is modelled as an oracle
  `Nat → ClientResult` indexed by a running call counter; prompt content does
  not influence the oracle, so task-message construction (which only affects
  prompt text) is not represented.
* Stateful orchestrator methods live in the monad `M α = OrchState →
  Except String α × OrchState`: a thrown JavaScript exception is
  `Except.error`, and state mutations made before a throw persist, exactly as
  JavaScript in-place mutation of `this.workflowHistory` does.
-/

/-- JSON-like JavaScript values (numbers restricted to integers: every numeric
literal the claims exercise is an integer). -/
inductive Json where
  | null : Json
  | bool : Bool → Json
  | num : Int → Json
  | str : String → Json
  | arr : List Json → Json
  | obj : List (String × Json) → Json
deriving Repr

/-- JavaScript object property read (first binding wins; objects built by the
embedding never carry duplicate keys). `none` models `undefined`. -/
def Json.getField : Json → String → Option Json
  | .obj fs, k => (fs.find? (fun e => e.1 == k)).map (·.2)
  | _, _ => none

/-- JavaScript truthiness of a possibly-undefined value. -/
def jsTruthy : Option Json → Bool
  | none => false
  | some .null => false
  | some (.bool b) => b
  | some (.num n) => n != 0
  | some (.str s) => s != ""
  | some (.arr _) => true
  | some (.obj _) => true

/-- `Number()` coercion on the string fragment the system can produce:
optionally signed decimal integer literals (other strings coerce to NaN,
modelled as `none`). -/
def strToInt : String → Option Int
  | s =>
    match s.data with
    | [] => some 0
    | '-' :: ds => if ds ≠ [] ∧ ds.all Char.isDigit then some (-(Int.ofNat (ds.foldl (fun a c => a * 10 + (c.toNat - 48)) 0))) else none
    | ds => if ds.all Char.isDigit then some (Int.ofNat (ds.foldl (fun a c => a * 10 + (c.toNat - 48)) 0)) else none

/-- JavaScript `Number()` coercion of a possibly-undefined value
(`none` = NaN; multi-element arrays and plain objects coerce to NaN). -/
def jsToNumber : Option Json → Option Int
  | none => none
  | some .null => some 0
  | some (.bool b) => some (if b then 1 else 0)
  | some (.num n) => some n
  | some (.str s) => strToInt s
  | some (.arr []) => some 0
  | some (.arr _) => none
  | some (.obj _) => none

/-- JavaScript `x < m` for a possibly-undefined `x` against an integer
literal: NaN comparisons (including `undefined < m`) are `false`. -/
def jsLtNum (v : Option Json) (m : Int) : Bool :=
  match jsToNumber v with
  | none => false
  | some n => decide (n < m)

/-- JavaScript object property assignment `acc[k] = v`: overwrite in place if
the key exists, otherwise append (insertion order preserved). -/
def objSet {α : Type} : List (String × α) → String → α → List (String × α)
  | [], k, v => [(k, v)]
  | (k', v') :: rest, k, v =>
    if k' == k then (k', v) :: rest else (k', v') :: objSet rest k v

/-- JavaScript object property lookup on an association list. -/
def objGet {α : Type} (m : List (String × α)) (k : String) : Option α :=
  (m.find? (fun e => e.1 == k)).map (·.2)

/-! ## Response Extractor (`ClaudeClient.parseJSON`, `BaseAgent._parseResponse`) -/

/-- Opening brace character. -/
def lbrace : Char := '\x7b'

/-- Closing brace character. -/
def rbrace : Char := '\x7d'

/-- Suffix of `cs` starting right after the first occurrence of `pat`
(`none` if `pat` does not occur). -/
def afterFirst (pat : List Char) : List Char → Option (List Char)
  | [] => none
  | c :: rest =>
    if pat.isPrefixOf (c :: rest) then some ((c :: rest).drop pat.length)
    else afterFirst pat rest

/-- Prefix of `cs` strictly before the first occurrence of `pat`
(`none` if `pat` does not occur). -/
def upToFirst (pat : List Char) : List Char → Option (List Char)
  | [] => none
  | c :: rest =>
    if pat.isPrefixOf (c :: rest) then some []
    else (upToFirst pat rest).map (c :: ·)

/-- Strip leading and trailing whitespace (the `\s*` groups of the fenced
regex). -/
def trimWs (cs : List Char) : List Char :=
  ((cs.dropWhile Char.isWhitespace).reverse.dropWhile Char.isWhitespace).reverse

/-- Step 2 of `ClaudeClient.parseJSON`:
content match of the regex for a fenced json block, yielding its trimmed
interior: the text between the first occurrence of the json fence opener and
the next closing fence. `none` when the regex does not match. -/
def extractFencedCore (cs : List Char) : Option (List Char) :=
  match afterFirst "```json".data cs with
  | none => none
  | some tail =>
    match upToFirst "```".data tail with
    | none => none
    | some interior => some (trimWs interior)

/-- Prefix of `cs` through the last `rbrace` (meaningful when one occurs). -/
def takeUpToLast : List Char → List Char
  | [] => []
  | c :: rest =>
    if rbrace ∈ rest then c :: takeUpToLast rest
    else if c = rbrace then [c] else []

/-- Step 3 regex of `ClaudeClient.parseJSON`: leftmost-greedy match —
the match starts at the first opening brace that has a closing brace after it
and extends (greedily) through the last closing brace. -/
def braceSpanMatch : List Char → Option (List Char)
  | [] => none
  | c :: rest =>
    if c = lbrace ∧ rbrace ∈ rest then some (c :: takeUpToLast rest)
    else braceSpanMatch rest

/-- `ClaudeClient.parseJSON`, translated from source: whole-text parse; else
fenced-block extraction (when a fenced block is found, its interior's parse
result — possibly null — is returned without falling through); else
brace-span extraction; else null. `p` models the external `JSON.parse`. -/
def parseJSONCore (p : String → Option Json) (cs : List Char) : Option Json :=
  match p (String.mk cs) with
  | some j => some j
  | none =>
    match extractFencedCore cs with
    | some interior => p (String.mk interior)
    | none =>
      match braceSpanMatch cs with
      | some sub => p (String.mk sub)
      | none => none

/-- `ClaudeClient.parseJSON` on strings. -/
def parseJSON (p : String → Option Json) (s : String) : Option Json :=
  parseJSONCore p s.data

/-- `BaseAgent._parseResponse`: the extractor result if JavaScript-truthy,
else the fallback wrapper object with the raw text under `rawResponse`. -/
def parseResponse (p : String → Option Json) (content : String) : Json :=
  match parseJSON p content with
  | some j =>
    if jsTruthy (some j) then j
    else Json.obj [("rawResponse", Json.str content), ("parsed", Json.bool false)]
  | none => Json.obj [("rawResponse", Json.str content), ("parsed", Json.bool false)]

/-! ## Generation Client and Agent Runner (`ClaudeClient`, `BaseAgent`) -/

/-- Normalized outcome of one external generation call
(`ClaudeClient.sendMessage`): success with response text and token counts, or
a captured failure message. `sendMessage` itself never throws. -/
inductive ClientResult where
  | ok : String → Nat → Nat → ClientResult
  | err : String → ClientResult
deriving Repr

/-- Whether a client outcome is a success. -/
def ClientResult.isOk : ClientResult → Bool
  | .ok _ _ _ => true
  | .err _ => false

/-- Error message of a failed client outcome. -/
def ClientResult.errMsg : ClientResult → Option String
  | .ok _ _ _ => none
  | .err m => some m

/-- External environment: the `JSON.parse` capability and the generation
client modelled as an oracle indexed by the running call counter. -/
structure Env where
  jsonParse : String → Option Json
  client : Nat → ClientResult

/-- Static agent configuration (`AGENT_CONFIGS` entry / `BaseAgent` fields).
The instructions text and sampling parameters only shape the prompt, which
the oracle-modelled client ignores, so they are not represented. -/
structure BaseAgent where
  name : String
  role : String
deriving Repr, DecidableEq

/-- `ExecutionResult`: the value returned by `BaseAgent.execute`.
`metadata.executionTime` is flattened to `executionTime` (wall-clock time is
modelled as 0); the timestamp is not represented. `output = none` /
`error = none` model the corresponding field being absent. -/
structure ExecResult where
  success : Bool
  agent : String
  role : String
  output : Option Json
  error : Option String
  executionTime : Nat
deriving Repr

/-- `BaseAgent.execute`, translated from source: on client failure the thrown
error is caught and converted to a failure result carrying the message; on
client success the response text is parsed (the extractor is total) and
wrapped in a success result. The runner never throws. -/
def BaseAgent.execute (a : BaseAgent) (p : String → Option Json) (res : ClientResult) : ExecResult :=
  match res with
  | .ok text _ _ =>
    { success := true, agent := a.name, role := a.role,
      output := some (parseResponse p text), error := none, executionTime := 0 }
  | .err m =>
    { success := false, agent := a.name, role := a.role,
      output := none, error := some m, executionTime := 0 }

/-! ## Agent table (`src/config/agents.js`, `src/agents/index.js`) -/

/-- Scout agent configuration. -/
def scoutAgent : BaseAgent := { name := "Scout Agent", role := "target_discovery" }

/-- Resolver agent configuration. -/
def resolverAgent : BaseAgent := { name := "Resolver Agent", role := "entity_resolution" }

/-- Profiler agent configuration. -/
def profilerAgent : BaseAgent := { name := "Profiler Agent", role := "company_enrichment" }

/-- Valuation agent configuration. -/
def valuationAgent : BaseAgent := { name := "Valuation Agent", role := "business_valuation" }

/-- Compliance agent configuration. -/
def complianceAgent : BaseAgent := { name := "Compliance Agent", role := "regulatory_compliance" }

/-- Outreach agent configuration. -/
def outreachAgent : BaseAgent := { name := "Outreach Agent", role := "communication" }

/-- Diligence agent configuration. -/
def diligenceAgent : BaseAgent := { name := "Diligence Agent", role := "due_diligence" }

/-- Integrator agent configuration. -/
def integratorAgent : BaseAgent := { name := "Integrator Agent", role := "post_acquisition" }

/-- `AGENT_CONFIGS` / the `agents` object built in `src/agents/index.js`:
key-to-runner table in declaration order. -/
def AGENT_CONFIGS : List (String × BaseAgent) :=
  [("scout", scoutAgent), ("resolver", resolverAgent), ("profiler", profilerAgent),
   ("valuation", valuationAgent), ("compliance", complianceAgent),
   ("outreach", outreachAgent), ("diligence", diligenceAgent),
   ("integrator", integratorAgent)]

/-- `this.agents[agentKey]` lookup in the orchestrator. -/
def agents (k : String) : Option BaseAgent :=
  (AGENT_CONFIGS.find? (fun e => e.1 == k)).map (·.2)

/-- The fixed closed set of agent identifiers. -/
def knownKeys : List String := AGENT_CONFIGS.map (·.1)

/-! ## Orchestrator state and effect monad -/

/-- `WorkflowHistoryEntry` (timestamp not represented). -/
structure HistEntry where
  agent : String
  success : Bool
  executionTime : Nat
deriving Repr, DecidableEq

/-- Orchestrator mutable state: the append-only workflow history plus the
count of generation calls issued so far (the oracle index). -/
structure OrchState where
  history : List HistEntry
  calls : Nat
deriving Repr, DecidableEq

/-- Effect monad of orchestrator methods: a JavaScript throw is
`Except.error`; state mutated before the throw persists (JavaScript mutates
`this.workflowHistory` in place). -/
def M (α : Type) : Type := OrchState → Except String α × OrchState

/-- Return. -/
def M.pure {α : Type} (a : α) : M α := fun st => (Except.ok a, st)

/-- Sequencing that short-circuits on a throw while keeping the state. -/
def M.bind {α β : Type} (m : M α) (f : α → M β) : M β := fun st =>
  match m st with
  | (Except.ok a, st') => f a st'
  | (Except.error e, st') => (Except.error e, st')

instance : Monad M where
  pure := M.pure
  bind := M.bind

/-- Throw a JavaScript exception. -/
def M.throw {α : Type} (e : String) : M α := fun st => (Except.error e, st)

/-- JavaScript property read `v.k` on a possibly-undefined value: reading a
property of `undefined` or `null` throws a TypeError; any other value yields
the property (possibly `undefined`). -/
def jsGetFieldM (v : Option Json) (k : String) : M (Option Json) :=
  match v with
  | none => M.throw ("TypeError: cannot read properties of undefined (reading " ++ k ++ ")")
  | some .null => M.throw ("TypeError: cannot read properties of null (reading " ++ k ++ ")")
  | some j => M.pure (j.getField k)

/-- JavaScript array spread `[...v]`: spreading `undefined`, `null`, numbers,
booleans or plain objects throws; arrays spread to their elements and strings
to their characters. -/
def jsSpread (v : Option Json) : M (List Json) :=
  match v with
  | some (.arr xs) => M.pure xs
  | some (.str s) => M.pure (s.data.map (fun c => Json.str (String.mk [c])))
  | _ => M.throw "TypeError: value is not iterable"

/-- Element-wise body of `v.map(x => x.k)`: property reads throw on `null`
elements. -/
def jsMapFieldList (k : String) : List Json → M (List (Option Json))
  | [] => M.pure []
  | x :: rest => do
    let fx ←
      match x with
      | Json.null => M.throw ("TypeError: cannot read properties of null (reading " ++ k ++ ")")
      | j => M.pure (j.getField k)
    let r ← jsMapFieldList k rest
    M.pure (fx :: r)

/-- JavaScript `v.map(x => x.k)`: calling `.map` on anything but an array
throws; element property reads throw on `null` elements. -/
def jsArrMapField (v : Option Json) (k : String) : M (List (Option Json)) :=
  match v with
  | some (.arr xs) => jsMapFieldList k xs
  | _ => M.throw "TypeError: map is not a function"

/-! ## Orchestrator primitives (`AgentOrchestrator`) -/

/-- Single-quote string, used in the unknown-agent error message. -/
def squoteStr : String := String.mk [Char.ofNat 39]

/-- `AgentOrchestrator.executeAgent`, translated from source: looks the key up
in the agent table and THROWS an Error for an unknown key (before any
generation call); otherwise runs the agent (consuming one oracle outcome) and
appends a workflow-history entry regardless of success/failure. The task
input and context shape only the prompt and are not represented. -/
def executeAgent (env : Env) (key : String) : M ExecResult := fun st =>
  match agents key with
  | none => (Except.error ("Agent " ++ squoteStr ++ key ++ squoteStr ++ " not found"), st)
  | some a =>
    let r := a.execute env.jsonParse (env.client st.calls)
    (Except.ok r,
     { history := st.history ++ [{ agent := key, success := r.success, executionTime := r.executionTime }],
       calls := st.calls + 1 })

/-- Result object of `AgentOrchestrator.executePipeline`: the failure object
carries `failedAt` (the failing runner's display name) and that step's error
message; the success object carries the final output and the accumulated
role-keyed context. -/
inductive PipelineResult where
  | failure : String → List ExecResult → Option String → PipelineResult
  | success : List ExecResult → Option Json → List (String × Option Json) → PipelineResult
deriving Repr

/-- The `for` loop of `executePipeline`: runs agents in order, short-circuits
on the first failing step, threads each output as the next input and grows
the role-keyed context. On normal exit the source reads
`results[results.length - 1].output`, which on an empty agent sequence is a
property read on `undefined` and throws. -/
def pipelineLoop (env : Env) : List String → Option Json → List (String × Option Json) → List ExecResult → M PipelineResult
  | [], _, ctx, acc =>
    match acc.getLast? with
    | some r => M.pure (PipelineResult.success acc r.output ctx)
    | none => M.throw "TypeError: cannot read properties of undefined (reading output)"
  | k :: rest, _input, ctx, acc => do
    let r ← executeAgent env k
    if r.success then
      pipelineLoop env rest r.output (objSet ctx r.role r.output) (acc ++ [r])
    else
      M.pure (PipelineResult.failure r.agent (acc ++ [r]) r.error)

/-- `AgentOrchestrator.executePipeline`. -/
def executePipeline (env : Env) (agentSequence : List String) (initialInput : Option Json) : M PipelineResult :=
  pipelineLoop env agentSequence initialInput [] []

/-- Result object of `AgentOrchestrator.executeParallel`. -/
structure ParallelResult where
  success : Bool
  results : List ExecResult
  outputs : List (String × Option Json)
deriving Repr

/-- The promise fan-out of `executeParallel`, linearized in list order (the
join only collects values; cross-branch interleaving affects nothing the
embedding observes). -/
def runAll (env : Env) : List String → M (List ExecResult)
  | [] => M.pure []
  | k :: rest => do
    let r ← executeAgent env k
    let rs ← runAll env rest
    M.pure (r :: rs)

/-- `AgentOrchestrator.executeParallel`: waits for every agent (no
short-circuit), overall success is the conjunction, and outputs are reduced
into a role-keyed object (assignment also inserts `undefined` for failed
agents). -/
def executeParallel (env : Env) (agentKeys : List String) : M ParallelResult := do
  let rs ← runAll env agentKeys
  M.pure
    { success := rs.all (·.success),
      results := rs,
      outputs := rs.foldl (fun acc r => objSet acc r.role r.output) [] }

/-! ## Named workflows -/

/-- The inner `results` object of a sourcing-workflow result (the
compliance-denial branch has no `valuation` field). -/
structure SourcingResults where
  scout : ExecResult
  profiler : ExecResult
  valuation : Option ExecResult
  compliance : ExecResult
deriving Repr

/-- The `summary` object of a qualified sourcing-workflow result. `risks`
merges the scout risks with the mapped compliance violation details (array
elements may be `undefined`). -/
structure SourcingSummary where
  score : Option Json
  estimatedValue : Option Json
  topSignals : Option Json
  risks : List (Option Json)
deriving Repr

/-- Result object of `executeSourcingWorkflow` (union of the three return
shapes; absent fields are `none`). -/
structure SourcingResult where
  success : Bool
  qualified : Bool
  reason : Option String
  scoutResult : Option ExecResult
  results : Option SourcingResults
  summary : Option SourcingSummary
deriving Repr

/-- `AgentOrchestrator.executeSourcingWorkflow`, translated from source:
scout; threshold exit when the scout failed or its output's `score` compares
below 50 (a missing score compares false); profiler; valuation and compliance
(the promise pair linearized valuation-first); compliance-denial exit reading
`complianceResult.output.approved` WITHOUT a success check (a property read
on `undefined` when the compliance step failed — it throws); otherwise the
qualified result with the merged summary. -/
def executeSourcingWorkflow (env : Env) : M SourcingResult := do
  let scoutResult ← executeAgent env "scout"
  let belowThreshold ←
    if scoutResult.success = false then M.pure true
    else do
      let sc ← jsGetFieldM scoutResult.output "score"
      M.pure (jsLtNum sc 50)
  if belowThreshold then
    M.pure
      { success := true, qualified := false,
        reason := some "Did not meet minimum score threshold",
        scoutResult := some scoutResult, results := none, summary := none }
  else do
    let profilerResult ← executeAgent env "profiler"
    let valuationResult ← executeAgent env "valuation"
    let complianceResult ← executeAgent env "compliance"
    let approved ← jsGetFieldM complianceResult.output "approved"
    if jsTruthy approved = false then
      M.pure
        { success := true, qualified := false,
          reason := some "Failed compliance checks",
          scoutResult := none,
          results := some { scout := scoutResult, profiler := profilerResult,
                            valuation := none, compliance := complianceResult },
          summary := none }
    else do
      let score ← jsGetFieldM scoutResult.output "score"
      let estVal ← jsGetFieldM valuationResult.output "estimated_value_range"
      let topSignals ← jsGetFieldM scoutResult.output "top_signals"
      let risksVal ← jsGetFieldM scoutResult.output "risks"
      let scoutRisks ← jsSpread risksVal
      let violationsVal ← jsGetFieldM complianceResult.output "violations"
      let violDetails ← jsArrMapField violationsVal "details"
      M.pure
        { success := true, qualified := true, reason := none, scoutResult := none,
          results := some { scout := scoutResult, profiler := profilerResult,
                            valuation := some valuationResult, compliance := complianceResult },
          summary := some { score := score, estimatedValue := estVal,
                            topSignals := topSignals,
                            risks := scoutRisks.map some ++ violDetails } }

/-- Result object of `executeOutreachWorkflow`. -/
structure OutreachResult where
  success : Bool
  reason : Option String
  violations : Option (Option Json)
  complianceCheck : Option ExecResult
  outreachDraft : Option ExecResult
deriving Repr

/-- `AgentOrchestrator.executeOutreachWorkflow`, translated from source: the
input object literal reads `companyData.company_id` and `companyData.contact`
(throwing when `companyData` is undefined or null); the compliance gate again
reads `.output.approved` without a success check. -/
def executeOutreachWorkflow (env : Env) (companyData : Option Json) : M OutreachResult := do
  let _ ← jsGetFieldM companyData "company_id"
  let _ ← jsGetFieldM companyData "contact"
  let complianceResult ← executeAgent env "compliance"
  let approved ← jsGetFieldM complianceResult.output "approved"
  if jsTruthy approved = false then do
    let viol ← jsGetFieldM complianceResult.output "violations"
    M.pure
      { success := false, reason := some "Outreach not approved by compliance",
        violations := some viol, complianceCheck := none, outreachDraft := none }
  else do
    let outreachResult ← executeAgent env "outreach"
    M.pure
      { success := true, reason := none, violations := none,
        complianceCheck := some complianceResult, outreachDraft := some outreachResult }

/-- Result object of `executeDiligenceWorkflow`. -/
structure DiligenceResult where
  success : Bool
  diligenceReport : ExecResult
deriving Repr

/-- `AgentOrchestrator.executeDiligenceWorkflow`: the input object literal
reads `companyData.company_id` and `companyData.vertical`, then runs the
diligence agent once. -/
def executeDiligenceWorkflow (env : Env) (companyData : Option Json) : M DiligenceResult := do
  let _ ← jsGetFieldM companyData "company_id"
  let _ ← jsGetFieldM companyData "vertical"
  let r ← executeAgent env "diligence"
  M.pure { success := true, diligenceReport := r }

/-- Result object of `executeIntegrationWorkflow`. -/
structure IntegrationResult where
  success : Bool
  integrationPlan : ExecResult
deriving Repr

/-- `AgentOrchestrator.executeIntegrationWorkflow`: runs the integrator agent
once on the deal data (no property reads on the input). -/
def executeIntegrationWorkflow (env : Env) : M IntegrationResult := do
  let r ← executeAgent env "integrator"
  M.pure { success := true, integrationPlan := r }

/-! ## Concrete instances used by witnesses and counterexamples -/

/-- Empty initial orchestrator state. -/
def st0 : OrchState := { history := [], calls := 0 }

/-- A `JSON.parse` instance that fails on every text. -/
def pNone : String → Option Json := fun _ => none

/-- Environment whose client always fails; used where only the lookup path
matters. -/
def envEmpty : Env := { jsonParse := pNone, client := fun _ => ClientResult.err "unused" }

/-- A concrete `JSON.parse` instance recognizing the handful of fixed response
texts the witnesses feed through the system. -/
def demoParse : String → Option Json := fun s =>
  if s == "SCOUT_OK" then
    some (Json.obj [("score", Json.num 80),
                    ("top_signals", Json.arr [Json.str "growth"]),
                    ("risks", Json.arr [Json.str "churn"])])
  else if s == "SCOUT_LOW" then some (Json.obj [("score", Json.num 10)])
  else if s == "PROFILE" then some (Json.obj [("operational_maturity", Json.num 7)])
  else if s == "VALUE" then some (Json.obj [("estimated_value_range", Json.str "1M-2M")])
  else if s == "APPROVED" then
    some (Json.obj [("approved", Json.bool true), ("violations", Json.arr [])])
  else if s == "DENIED" then
    some (Json.obj [("approved", Json.bool false),
                    ("violations", Json.arr [Json.obj [("details", Json.str "unlicensed")]])])
  else none

/-- Keys of an object value (discriminates the two wrapper shapes). -/
def objKeys : Json → List String
  | .obj fs => fs.map (·.1)
  | _ => []

/-! ## Shared evaluation lemmas -/

/-- A runner execution succeeds exactly when the client call succeeded. -/
theorem BaseAgent.execute_success (a : BaseAgent) (p : String → Option Json) (res : ClientResult) :
    (a.execute p res).success = res.isOk := by
  cases res <;> rfl

/-- A runner execution's role is the agent's role. -/
theorem BaseAgent.execute_role (a : BaseAgent) (p : String → Option Json) (res : ClientResult) :
    (a.execute p res).role = a.role := by
  cases res <;> rfl

/-- The extractor never produces the JavaScript `null` value (a falsy parse
falls back to the wrapper object). -/
theorem parseResponse_ne_null (p : String → Option Json) (t : String) :
    parseResponse p t ≠ Json.null := by
  unfold parseResponse
  cases h : parseJSON p t with
  | none => simp
  | some j => cases j <;> simp [jsTruthy] <;> split <;> simp_all

/-- A successful runner execution carries a non-null parsed output. -/
theorem BaseAgent.execute_output_of_success (a : BaseAgent) (p : String → Option Json)
    (res : ClientResult) (h : (a.execute p res).success = true) :
    ∃ j, (a.execute p res).output = some j ∧ j ≠ Json.null := by
  cases res with
  | ok t i o => exact ⟨parseResponse p t, rfl, parseResponse_ne_null p t⟩
  | err m => simp [BaseAgent.execute] at h

/-- Reading a property of a defined, non-null value never throws. -/
theorem jsGetFieldM_some (j : Json) (k : String) (h : j ≠ Json.null) :
    jsGetFieldM (some j) k = M.pure (j.getField k) := by
  cases j <;> simp_all [jsGetFieldM]

/-- Evaluation of `executeAgent` on a known key: one oracle outcome is
consumed and one history entry appended. -/
theorem executeAgent_known (env : Env) (key : String) (a : BaseAgent) (st : OrchState)
    (h : agents key = some a) :
    executeAgent env key st =
      (Except.ok (a.execute env.jsonParse (env.client st.calls)),
       { history := st.history ++
           [{ agent := key,
              success := (a.execute env.jsonParse (env.client st.calls)).success,
              executionTime := (a.execute env.jsonParse (env.client st.calls)).executionTime }],
         calls := st.calls + 1 }) := by
  simp [executeAgent, h]

/-- Monadic bind unfolds to `M.bind`. -/
theorem M.bind_def {α β : Type} (m : M α) (f : α → M β) : (m >>= f) = M.bind m f := rfl

/-- Monadic pure unfolds to `M.pure`. -/
theorem M.pure_def {α : Type} (a : α) : (pure a : M α) = M.pure a := rfl

/-! ## C1 -/

/-- C1 claims `executeAgent` on an unknown id returns a non-throwing error
result. Counterexample: on the unknown id "franchise" the orchestrator
throws (`Except.error`), returns no result value at all, and consumes no
oracle outcome. -/
theorem C1_counterexample :
    (executeAgent envEmpty "franchise" st0).1 =
      Except.error ("Agent " ++ squoteStr ++ "franchise" ++ squoteStr ++ " not found")
    ∧ (∀ r : ExecResult, (executeAgent envEmpty "franchise" st0).1 ≠ Except.ok r)
    ∧ (executeAgent envEmpty "franchise" st0).2 = st0 :=
  ⟨rfl, fun _ h => Except.noConfusion h, rfl⟩

/-- C1 (amended): for every agent id that is not a key of the agent table,
`executeAgent` throws an Error naming the id — rather than returning a
non-throwing error result — and does so before any external generation call
is attempted (the state, including the call counter, is untouched). -/
theorem C1_unknown_agent_throws (env : Env) (key : String) (st : OrchState)
    (h : agents key = none) :
    executeAgent env key st =
      (Except.error ("Agent " ++ squoteStr ++ key ++ squoteStr ++ " not found"), st) := by
  simp [executeAgent, h]

/-- Witness for C1: the concrete unknown id "franchise" throws with the state
untouched. -/
theorem C1_witness :
    agents "franchise" = none ∧
    executeAgent envEmpty "franchise" st0 =
      (Except.error ("Agent " ++ squoteStr ++ "franchise" ++ squoteStr ++ " not found"), st0) :=
  ⟨rfl, C1_unknown_agent_throws envEmpty "franchise" st0 rfl⟩

/-! ## C5 -/

/-- C5 claims the total-parse-failure fallback wrapper is
`{rawText: <original>, parsed: false}`. Counterexample: at the unparseable
text "hello" the extractor returns the wrapper keyed `rawResponse`, not
`rawText`. -/
theorem C5_counterexample :
    parseResponse pNone "hello" =
      Json.obj [("rawResponse", Json.str "hello"), ("parsed", Json.bool false)]
    ∧ parseResponse pNone "hello" ≠
      Json.obj [("rawText", Json.str "hello"), ("parsed", Json.bool false)] :=
  ⟨rfl, fun h => absurd (congrArg objKeys h) (by decide)⟩

/-- C5 (amended): for every response text on which none of the three
extraction steps yields a document, the extractor returns — never an error —
the fallback wrapper `{rawResponse: <original text>, parsed: false}` whose
`rawResponse` field is exactly the input text, with no truncation or
mutation. -/
theorem C5_fallback_raw_is_input (p : String → Option Json) (s : String)
    (h : parseJSON p s = none) :
    parseResponse p s =
      Json.obj [("rawResponse", Json.str s), ("parsed", Json.bool false)] := by
  simp [parseResponse, h]

/-- Witness for C5: a concrete structureless text round-trips into the
wrapper unchanged. -/
theorem C5_witness :
    parseJSON pNone "no structure here" = none ∧
    parseResponse pNone "no structure here" =
      Json.obj [("rawResponse", Json.str "no structure here"), ("parsed", Json.bool false)] :=
  ⟨rfl, C5_fallback_raw_is_input pNone "no structure here" rfl⟩

/-! ## C9 -/

/-- C9: for every agent, parse capability and generation-client outcome, the
execution result of the runner — and of `executeAgent` whenever it returns a
result — has exactly one of the `output` / `error` fields present (the spec
calls the latter `errorMessage`), in the direction the flag dictates: on
success it carries an output and no error message, on failure it carries an
error message and no output. -/
theorem C9_exec_result_exclusive :
    (∀ (a : BaseAgent) (p : String → Option Json) (res : ClientResult),
       ((a.execute p res).success = true →
          (a.execute p res).output.isSome ∧ (a.execute p res).error = none) ∧
       ((a.execute p res).success = false →
          (a.execute p res).output = none ∧ (a.execute p res).error.isSome)) ∧
    (∀ (env : Env) (key : String) (st : OrchState) (r : ExecResult) (st2 : OrchState),
       executeAgent env key st = (Except.ok r, st2) →
       (r.success = true → r.output.isSome ∧ r.error = none) ∧
       (r.success = false → r.output = none ∧ r.error.isSome)) := by
  constructor
  · intro a p res
    cases res with
    | ok t i o =>
      exact ⟨fun _ => ⟨rfl, rfl⟩, fun hfalse => Bool.noConfusion hfalse⟩
    | err m =>
      exact ⟨fun htrue => Bool.noConfusion htrue, fun _ => ⟨rfl, rfl⟩⟩
  · intro env key st r st2 h
    cases hk : agents key with
    | none => rw [show executeAgent env key st = (Except.error ("Agent " ++ squoteStr ++ key ++ squoteStr ++ " not found"), st) from by simp [executeAgent, hk]] at h; exact Except.noConfusion (congrArg Prod.fst h)
    | some a =>
      rw [executeAgent_known env key a st hk] at h
      have hr : r = a.execute env.jsonParse (env.client st.calls) :=
        (Except.ok.inj (congrArg Prod.fst h)).symm
      rw [hr]
      cases env.client st.calls with
      | ok t i o =>
        exact ⟨fun _ => ⟨rfl, rfl⟩, fun hfalse => Bool.noConfusion hfalse⟩
      | err m =>
        exact ⟨fun htrue => Bool.noConfusion htrue, fun _ => ⟨rfl, rfl⟩⟩

/-- Witness for C9: a concrete successful scout call through the orchestrator
has output and no error message, and a concrete failing call has an error
message and no output. -/
theorem C9_witness :
    ((scoutAgent.execute demoParse (ClientResult.ok "SCOUT_OK" 1 1)).output.isSome ∧
     (scoutAgent.execute demoParse (ClientResult.ok "SCOUT_OK" 1 1)).error = none) ∧
    ((scoutAgent.execute demoParse (ClientResult.err "boom")).output = none ∧
     (scoutAgent.execute demoParse (ClientResult.err "boom")).error.isSome) :=
  ⟨(C9_exec_result_exclusive.2
      { jsonParse := demoParse, client := fun _ => ClientResult.ok "SCOUT_OK" 1 1 }
      "scout" st0 _ _ rfl).1 rfl,
   (C9_exec_result_exclusive.1 scoutAgent demoParse (ClientResult.err "boom")).2 rfl⟩

/-! ## C6 -/

/-- The substring from the first opening brace through the last closing brace
of the counterexample text, as a string. -/
def cexSpanStr : String := String.mk (lbrace :: ("\"ok\":1".data ++ [rbrace]))

/-- A `JSON.parse` instance that parses exactly the outer-brace span of the
counterexample text and nothing else. -/
def cexParse : String → Option Json := fun s =>
  if s == cexSpanStr then some (Json.obj [("ok", Json.num 1)]) else none

/-- The counterexample text: an unparseable fenced json block followed by a
parseable brace span. -/
def cexText : String := "```json x``` \x7b\"ok\":1\x7d"

/-- `takeUpToLast` on a list decomposed at its last closing brace keeps
everything through that brace. -/
theorem takeUpToLast_decomp (mid post : List Char) (hpost : rbrace ∉ post) :
    takeUpToLast (mid ++ rbrace :: post) = mid ++ [rbrace] := by
  induction mid with
  | nil => simp [takeUpToLast, hpost]
  | cons m mid ih =>
    have hmem : rbrace ∈ mid ++ rbrace :: post := by simp [List.mem_append]
    simp only [List.cons_append, takeUpToLast]
    simp [hmem, ih]

/-- The step-3 regex match on a text decomposed at its first opening brace
and last closing brace is exactly the greedy outer span. -/
theorem braceSpanMatch_decomp (pre mid post : List Char)
    (hpre : lbrace ∉ pre) (hpost : rbrace ∉ post) :
    braceSpanMatch (pre ++ lbrace :: (mid ++ rbrace :: post)) =
      some (lbrace :: (mid ++ [rbrace])) := by
  induction pre with
  | nil =>
    have hmem : rbrace ∈ mid ++ rbrace :: post := by simp [List.mem_append]
    simp only [List.nil_append, braceSpanMatch]
    simp [hmem, takeUpToLast_decomp mid post hpost]
  | cons a pre ih =>
    have ha : a ≠ lbrace := fun h => hpre (h ▸ List.mem_cons_self a pre)
    have hpre' : lbrace ∉ pre := fun h => hpre (List.mem_cons_of_mem a h)
    simp only [List.cons_append, braceSpanMatch]
    rw [if_neg (fun hc => ha hc.1)]
    exact ih hpre'

/-- C6 claims step 3 parses the greedy outer-brace span whenever the
whole-text parse and the fenced-block extraction fail and braces are present.
Counterexample: `cexText` holds an unparseable fenced block followed by a
parseable brace span; steps 1 and 2 yield no document and the outer span
exists and parses under `cexParse`, yet the extractor returns null — when a
fenced block is found but unparseable, the source returns immediately and
step 3 is never attempted. -/
theorem C6_counterexample :
    parseJSON cexParse cexText = none
    ∧ cexText.data =
        "```json x``` ".data ++ lbrace :: ("\"ok\":1".data ++ rbrace :: ([] : List Char))
    ∧ lbrace ∉ "```json x``` ".data
    ∧ cexParse cexSpanStr = some (Json.obj [("ok", Json.num 1)])
    ∧ parseJSON cexParse cexText ≠ cexParse cexSpanStr := by
  refine ⟨rfl, by decide, by decide, rfl, ?_⟩
  intro h
  rw [show parseJSON cexParse cexText = none from rfl,
      show cexParse cexSpanStr = some (Json.obj [("ok", Json.num 1)]) from rfl] at h
  exact Option.noConfusion h

/-- C6 (amended): for every response text that fails the whole-text parse,
contains NO fenced json block, and contains an opening brace followed later
by a closing brace, step 3 attempts to parse exactly the substring spanning
from the first opening brace to the last closing brace of the text — the
greedy outer span, not the first matching pair (the span swallows every
intervening brace). When a fenced block is present but its interior is
unparseable, the extractor instead returns null without attempting step 3. -/
theorem C6_outer_span (p : String → Option Json) (s : String) (pre mid post : List Char)
    (hwhole : p s = none)
    (hfence : extractFencedCore s.data = none)
    (hdec : s.data = pre ++ lbrace :: (mid ++ rbrace :: post))
    (hpre : lbrace ∉ pre) (hpost : rbrace ∉ post) :
    parseJSON p s = p (String.mk (lbrace :: (mid ++ [rbrace]))) := by
  have hmk : String.mk s.data = s := by cases s; rfl
  unfold parseJSON parseJSONCore
  rw [hmk, hwhole, hfence, hdec, braceSpanMatch_decomp pre mid post hpre hpost]

/-- Witness for C6: on a concrete text with prose on both sides of the braces
and an intervening closing brace, the extractor parses the span from the
first opening brace through the LAST closing brace (not the first matching
pair). -/
theorem C6_witness :
    parseJSON cexParse "note \x7ba\x7d tail \x7d" =
      cexParse (String.mk (lbrace :: ("a\x7d tail ".data ++ [rbrace]))) :=
  C6_outer_span cexParse "note \x7ba\x7d tail \x7d"
    "note ".data "a\x7d tail ".data []
    rfl rfl (by decide) (by decide) (by decide)

/-! ## C3 -/

/-- Agent keys of a workflow-history list, in append order. -/
def histAgents (h : List HistEntry) : List String := h.map (·.agent)

/-- The pipeline loop short-circuits at the first failing step: with the
first `k` client outcomes successful and outcome `k` a failure, the loop
returns the failure object naming step `k`'s agent and carrying its error
message, having invoked exactly the first `k+1` agents. -/
theorem pipelineLoop_fail (env : Env) :
    ∀ (keys : List String) (input : Option Json) (ctx : List (String × Option Json))
      (acc : List ExecResult) (st : OrchState) (k : Nat) (a : BaseAgent) (emsg : String),
      (∀ key ∈ keys, (agents key).isSome) →
      ∀ (hk : k < keys.length),
      (∀ i, i < k → (env.client (st.calls + i)).isOk = true) →
      env.client (st.calls + k) = ClientResult.err emsg →
      agents (keys.get ⟨k, hk⟩) = some a →
      ∃ rs st',
        pipelineLoop env keys input ctx acc st =
          (Except.ok (PipelineResult.failure a.name (acc ++ rs) (some emsg)), st')
        ∧ histAgents st'.history = histAgents st.history ++ keys.take (k+1)
        ∧ st'.calls = st.calls + (k+1)
        ∧ rs.length = k+1 := by
  intro keys
  induction keys with
  | nil =>
    intro input ctx acc st k a emsg hknown hk
    exact absurd hk (by simp)
  | cons key rest ih =>
    intro input ctx acc st k a emsg hknown hk hpre hfail hag
    cases k with
    | zero =>
      have hag0 : agents key = some a := hag
      have hfail0 : env.client st.calls = ClientResult.err emsg := by
        simpa using hfail
      refine ⟨[a.execute env.jsonParse (env.client st.calls)],
              { history := st.history ++
                  [{ agent := key,
                     success := (a.execute env.jsonParse (env.client st.calls)).success,
                     executionTime := (a.execute env.jsonParse (env.client st.calls)).executionTime }],
                calls := st.calls + 1 }, ?_, ?_, ?_, rfl⟩
      · simp only [pipelineLoop, M.bind_def, M.bind, executeAgent_known env key a st hag0]
        rw [hfail0]
        simp [BaseAgent.execute, M.pure]
      · simp [histAgents]
      · rfl
    | succ k' =>
      obtain ⟨a0, hag0⟩ : ∃ a0, agents key = some a0 :=
        Option.isSome_iff_exists.mp (hknown key (List.mem_cons_self key rest))
      have hok0 : (env.client st.calls).isOk = true := by
        have := hpre 0 (Nat.succ_pos k')
        simpa using this
      have hsucc : (a0.execute env.jsonParse (env.client st.calls)).success = true := by
        rw [BaseAgent.execute_success]; exact hok0
      set r0 : ExecResult := a0.execute env.jsonParse (env.client st.calls) with hr0
      set st1 : OrchState :=
        { history := st.history ++
            [{ agent := key, success := r0.success, executionTime := r0.executionTime }],
          calls := st.calls + 1 } with hst1
      have hknown' : ∀ key2 ∈ rest, (agents key2).isSome :=
        fun key2 hmem => hknown key2 (List.mem_cons_of_mem key hmem)
      have hk' : k' < rest.length := Nat.lt_of_succ_lt_succ hk
      have hpre' : ∀ i, i < k' → (env.client (st1.calls + i)).isOk = true := by
        intro i hi
        have : st1.calls + i = st.calls + (i + 1) := by simp [hst1]; omega
        rw [this]
        exact hpre (i + 1) (Nat.succ_lt_succ hi)
      have hfail' : env.client (st1.calls + k') = ClientResult.err emsg := by
        have : st1.calls + k' = st.calls + (k' + 1) := by simp [hst1]; omega
        rw [this]; exact hfail
      have hag' : agents (rest.get ⟨k', hk'⟩) = some a := hag
      obtain ⟨rs', st', heq, hhist, hcalls, hlen⟩ :=
        ih r0.output (objSet ctx r0.role r0.output) (acc ++ [r0]) st1 k' a emsg
          hknown' hk' hpre' hfail' hag'
      refine ⟨r0 :: rs', st', ?_, ?_, ?_, ?_⟩
      · simp only [pipelineLoop, M.bind_def, M.bind, executeAgent_known env key a0 st hag0]
        rw [← hr0, ← hst1, hsucc]
        simp only [if_true]
        rw [heq]
        have : acc ++ r0 :: rs' = (acc ++ [r0]) ++ rs' := by simp
        rw [this]
      · rw [hhist]
        simp [hst1, histAgents]
      · rw [hcalls]
        simp [hst1]; omega
      · simp [hlen]

/-- C3: for every sequence of known agent ids and every initial input, when
the first `k` client outcomes succeed and outcome `k` fails, `executePipeline`
executes the agents strictly in order, stops at step `k`, and returns the
failure object with `success = false` (the failure constructor), `failedAt`
equal to the failing agent's display name and `error` equal to that step's
error message; the agents after step `k` are never invoked (exactly `k+1`
history entries are appended and `k+1` oracle outcomes consumed). -/
theorem C3_pipeline_short_circuit (env : Env) (keys : List String) (input : Option Json)
    (st : OrchState) (k : Nat) (a : BaseAgent) (emsg : String)
    (hknown : ∀ key ∈ keys, (agents key).isSome)
    (hk : k < keys.length)
    (hpre : ∀ i, i < k → (env.client (st.calls + i)).isOk = true)
    (hfail : env.client (st.calls + k) = ClientResult.err emsg)
    (hag : agents (keys.get ⟨k, hk⟩) = some a) :
    ∃ rs st',
      executePipeline env keys input st =
        (Except.ok (PipelineResult.failure a.name rs (some emsg)), st')
      ∧ histAgents st'.history = histAgents st.history ++ keys.take (k+1)
      ∧ st'.calls = st.calls + (k+1)
      ∧ rs.length = k+1 := by
  obtain ⟨rs, st', heq, hhist, hcalls, hlen⟩ :=
    pipelineLoop_fail env keys input [] [] st k a emsg hknown hk hpre hfail hag
  exact ⟨rs, st', by simpa using heq, hhist, hcalls, hlen⟩

/-- Oracle for the C3 witness: the very first generation call fails. -/
def envC3 : Env :=
  { jsonParse := demoParse,
    client := fun n => if n == 0 then ClientResult.err "boom" else ClientResult.ok "APPROVED" 1 1 }

/-- Witness for C3: in the two-step pipeline scout–profiler whose first call
fails, the result is the failure object naming the Scout Agent with its error
message, and the profiler is never invoked (one history entry, one call). -/
theorem C3_witness :
    ∃ rs st',
      executePipeline envC3 ["scout", "profiler"] none st0 =
        (Except.ok (PipelineResult.failure "Scout Agent" rs (some "boom")), st')
      ∧ histAgents st'.history = histAgents st0.history ++ ["scout"]
      ∧ st'.calls = st0.calls + 1
      ∧ rs.length = 1 :=
  C3_pipeline_short_circuit envC3 ["scout", "profiler"] none st0 0 scoutAgent "boom"
    (by decide) (by decide) (fun i hi => absurd hi (by omega)) rfl rfl

/-! ## C4 -/

/-- Role of a known agent key (empty for unknown keys). -/
def roleOfKey (k : String) : String := ((agents k).map (·.role)).getD ""

/-- Runner of a known agent key (a dummy for unknown keys). -/
def agentOf (k : String) : BaseAgent := (agents k).getD { name := "", role := "" }

/-- The execution results `executeParallel` collects: each key's runner
applied to its own oracle outcome, in fan-out order. -/
def parallelExpected (env : Env) (c : Nat) : List String → List ExecResult
  | [] => []
  | k :: rest => (agentOf k).execute env.jsonParse (env.client c) :: parallelExpected env (c + 1) rest

/-- A key with a table entry is one of the eight known keys. -/
theorem agents_mem {k : String} {a : BaseAgent} (h : agents k = some a) : k ∈ knownKeys := by
  unfold agents at h
  obtain ⟨e, hfind, _⟩ := Option.map_eq_some'.mp h
  have hmem := List.mem_of_find?_eq_some hfind
  have hpred := List.find?_some hfind
  have : e.1 = k := by simpa using hpred
  rw [← this]
  exact List.mem_map_of_mem (·.1) hmem

/-- Distinct known keys have distinct roles (checked over the concrete
eight-entry table). -/
theorem roleInjOnKnown :
    ∀ k ∈ knownKeys, ∀ k2 ∈ knownKeys, roleOfKey k = roleOfKey k2 → k = k2 := by decide

/-- The role of a known key's runner. -/
theorem roleOfKey_eq {k : String} {a : BaseAgent} (h : agents k = some a) :
    a.role = roleOfKey k := by
  simp [roleOfKey, h]

/-- `agentOf` agrees with the table on known keys. -/
theorem agentOf_eq {k : String} {a : BaseAgent} (h : agents k = some a) : agentOf k = a := by
  simp [agentOf, h]

/-- Length of the collected parallel results. -/
theorem parallelExpected_length (env : Env) :
    ∀ (keys : List String) (c : Nat), (parallelExpected env c keys).length = keys.length := by
  intro keys
  induction keys with
  | nil => intro c; rfl
  | cons key rest ih => intro c; simp [parallelExpected, ih]

/-- Pointwise description of the collected parallel results. -/
theorem parallelExpected_get (env : Env) :
    ∀ (keys : List String) (c : Nat) (i : Nat) (hi : i < keys.length),
      (parallelExpected env c keys).get ⟨i, by rw [parallelExpected_length]; exact hi⟩ =
        (agentOf (keys.get ⟨i, hi⟩)).execute env.jsonParse (env.client (c + i)) := by
  intro keys
  induction keys with
  | nil => intro c i hi; exact absurd hi (by simp)
  | cons key rest ih =>
    intro c i hi
    cases i with
    | zero => simp [parallelExpected]
    | succ i' =>
      have hi' : i' < rest.length := Nat.lt_of_succ_lt_succ hi
      simp only [parallelExpected, List.get_cons_succ]
      rw [show c + (i' + 1) = (c + 1) + i' from by omega]
      exact ih (c + 1) i' hi'

/-- The roles of the collected parallel results are the keys' roles. -/
theorem parallelExpected_roles (env : Env) :
    ∀ (keys : List String) (c : Nat), (∀ key ∈ keys, (agents key).isSome) →
      (parallelExpected env c keys).map (·.role) = keys.map roleOfKey := by
  intro keys
  induction keys with
  | nil => intro c _; rfl
  | cons key rest ih =>
    intro c hknown
    obtain ⟨a0, hag0⟩ : ∃ a0, agents key = some a0 :=
      Option.isSome_iff_exists.mp (hknown key (List.mem_cons_self key rest))
    simp only [parallelExpected, List.map_cons]
    rw [BaseAgent.execute_role, agentOf_eq hag0, roleOfKey_eq hag0,
        ih (c + 1) (fun key2 hm => hknown key2 (List.mem_cons_of_mem key hm))]

/-- The overall parallel success flag is the conjunction of the individual
client outcomes. -/
theorem parallelExpected_all_success (env : Env) :
    ∀ (keys : List String) (c : Nat),
      (parallelExpected env c keys).all (·.success) =
        (List.range keys.length).all (fun i => (env.client (c + i)).isOk) := by
  intro keys
  induction keys with
  | nil => intro c; rfl
  | cons key rest ih =>
    intro c
    simp only [parallelExpected, List.all_cons, List.length_cons,
               List.range_succ_eq_map, List.all_map]
    rw [BaseAgent.execute_success]
    rw [show ((fun i => (env.client (c + i)).isOk) ∘ Nat.succ) =
           (fun i => (env.client ((c + 1) + i)).isOk) from funext (fun i => by
             simp only [Function.comp]; congr 2; omega)]
    rw [← ih (c + 1)]
    simp

/-- Reading back the key just assigned. -/
theorem objGet_objSet_self {α : Type} :
    ∀ (m : List (String × α)) (k : String) (v : α), objGet (objSet m k v) k = some v := by
  intro m
  induction m with
  | nil => intro k v; simp [objGet, objSet]
  | cons e rest ih =>
    intro k v
    by_cases h : e.1 = k
    · simp [objGet, objSet, h]
    · have hb : (e.1 == k) = false := by simpa using h
      cases e with
      | mk k' v' =>
        simp only [objSet, objGet] at *
        simp only [hb, Bool.false_eq_true, if_false, List.find?_cons, hb]
        exact ih k v

/-- Assigning a different key does not change a lookup. -/
theorem objGet_objSet_ne {α : Type} :
    ∀ (m : List (String × α)) (k k2 : String) (v : α), k ≠ k2 →
      objGet (objSet m k2 v) k = objGet m k := by
  intro m
  induction m with
  | nil =>
    intro k k2 v hne
    have : (k2 == k) = false := by simpa using (Ne.symm hne)
    simp [objGet, objSet, this]
  | cons e rest ih =>
    intro k k2 v hne
    cases e with
    | mk k' v' =>
      by_cases h : k' = k2
      · subst h
        have hbk : (k' == k) = false := beq_eq_false_iff_ne.mpr (Ne.symm hne)
        simp [objGet, objSet, List.find?_cons, hbk]
      · have hb2 : (k' == k2) = false := beq_eq_false_iff_ne.mpr h
        simp only [objSet, hb2, Bool.false_eq_true, if_false]
        cases hk : (k' == k) with
        | true => simp [objGet, List.find?_cons, hk]
        | false =>
          simp only [objGet, List.find?_cons, hk]
          exact ih k k2 v hne

/-- A fold of assignments over results avoiding a key leaves that key's
lookup unchanged. -/
theorem objGet_foldl_notmem :
    ∀ (rs : List ExecResult) (acc : List (String × Option Json)) (k : String),
      k ∉ rs.map (·.role) →
      objGet (rs.foldl (fun acc r => objSet acc r.role r.output) acc) k = objGet acc k := by
  intro rs
  induction rs with
  | nil => intro acc k _; rfl
  | cons r rest ih =>
    intro acc k hk
    have hk1 : k ≠ r.role := fun h => hk (by rw [h]; exact List.mem_cons_self _ _)
    have hk2 : k ∉ rest.map (·.role) := fun h => hk (List.mem_cons_of_mem _ h)
    simp only [List.foldl_cons]
    rw [ih (objSet acc r.role r.output) k hk2, objGet_objSet_ne acc k r.role r.output hk1]

/-- With pairwise-distinct roles, the folded outputs object maps each
result's role to its output. -/
theorem objGet_foldl_mem :
    ∀ (rs : List ExecResult) (acc : List (String × Option Json)) (r : ExecResult),
      (rs.map (·.role)).Nodup → r ∈ rs →
      objGet (rs.foldl (fun acc r => objSet acc r.role r.output) acc) r.role = some r.output := by
  intro rs
  induction rs with
  | nil => intro acc r _ hmem; exact absurd hmem (List.not_mem_nil r)
  | cons x rest ih =>
    intro acc r hnodup hmem
    rw [List.map_cons] at hnodup
    obtain ⟨hnotmem, hnodup'⟩ := List.nodup_cons.mp hnodup
    rcases List.mem_cons.mp hmem with heq | hmem'
    · subst heq
      simp only [List.foldl_cons]
      rw [objGet_foldl_notmem rest (objSet acc r.role r.output) r.role hnotmem,
          objGet_objSet_self]
    · simp only [List.foldl_cons]
      exact ih (objSet acc x.role x.output) r hnodup' hmem'

/-- Evaluation of the fan-out: all agents run, one history entry and one
oracle outcome per key. -/
theorem runAll_spec (env : Env) :
    ∀ (keys : List String) (st : OrchState), (∀ key ∈ keys, (agents key).isSome) →
      ∃ st', runAll env keys st = (Except.ok (parallelExpected env st.calls keys), st')
        ∧ st'.calls = st.calls + keys.length
        ∧ histAgents st'.history = histAgents st.history ++ keys := by
  intro keys
  induction keys with
  | nil =>
    intro st _
    exact ⟨st, rfl, by simp, by simp [histAgents]⟩
  | cons key rest ih =>
    intro st hknown
    obtain ⟨a0, hag0⟩ : ∃ a0, agents key = some a0 :=
      Option.isSome_iff_exists.mp (hknown key (List.mem_cons_self key rest))
    set r0 : ExecResult := a0.execute env.jsonParse (env.client st.calls) with hr0
    set st1 : OrchState :=
      { history := st.history ++
          [{ agent := key, success := r0.success, executionTime := r0.executionTime }],
        calls := st.calls + 1 } with hst1
    obtain ⟨st', heq, hcalls, hhist⟩ :=
      ih st1 (fun key2 hm => hknown key2 (List.mem_cons_of_mem key hm))
    refine ⟨st', ?_, ?_, ?_⟩
    · simp only [runAll, M.bind_def, M.bind, executeAgent_known env key a0 st hag0]
      rw [← hr0, ← hst1, heq]
      simp only [M.pure]
      have hc : st1.calls = st.calls + 1 := rfl
      rw [show parallelExpected env st.calls (key :: rest) =
            (agentOf key).execute env.jsonParse (env.client st.calls) ::
              parallelExpected env (st.calls + 1) rest from rfl,
          agentOf_eq hag0, ← hr0, ← hc]
    · rw [hcalls]; simp [hst1]; omega
    · rw [hhist]; simp [hst1, histAgents]

/-- C4: for every list of distinct known agent ids, `executeParallel` runs
every agent to completion regardless of individual failures (one oracle
outcome and one history entry per key — no short-circuit), returns `success`
equal to the conjunction of all individual client successes, and its
role-keyed `outputs` object contains the output of every agent whose own
call succeeded, even when a sibling failed. -/
theorem C4_parallel_no_short_circuit (env : Env) (keys : List String) (st : OrchState)
    (hknown : ∀ key ∈ keys, (agents key).isSome)
    (hnodup : keys.Nodup) :
    ∃ pr st',
      executeParallel env keys st = (Except.ok pr, st')
      ∧ st'.calls = st.calls + keys.length
      ∧ histAgents st'.history = histAgents st.history ++ keys
      ∧ pr.success = (List.range keys.length).all (fun i => (env.client (st.calls + i)).isOk)
      ∧ ∀ (i : Nat) (hi : i < keys.length) (a : BaseAgent),
          agents (keys.get ⟨i, hi⟩) = some a →
          (env.client (st.calls + i)).isOk = true →
          objGet pr.outputs a.role =
            some (a.execute env.jsonParse (env.client (st.calls + i))).output := by
  obtain ⟨st', heq, hcalls, hhist⟩ := runAll_spec env keys st hknown
  set rs : List ExecResult := parallelExpected env st.calls keys with hrs
  refine ⟨{ success := rs.all (·.success), results := rs,
            outputs := rs.foldl (fun acc r => objSet acc r.role r.output) [] },
          st', ?_, hcalls, hhist, ?_, ?_⟩
  · simp only [executeParallel, M.bind_def, M.bind, heq, M.pure]
  · exact parallelExpected_all_success env keys st.calls
  · intro i hi a hag hok
    have hroles : rs.map (·.role) = keys.map roleOfKey :=
      parallelExpected_roles env keys st.calls hknown
    have hrolesnodup : (rs.map (·.role)).Nodup := by
      rw [hroles]
      refine List.Nodup.map_on ?_ hnodup
      intro x hx y hy hxy
      have hxk : x ∈ knownKeys := by
        obtain ⟨ax, haxa⟩ := Option.isSome_iff_exists.mp (hknown x hx)
        exact agents_mem haxa
      have hyk : y ∈ knownKeys := by
        obtain ⟨ay, haya⟩ := Option.isSome_iff_exists.mp (hknown y hy)
        exact agents_mem haya
      exact roleInjOnKnown x hxk y hyk hxy
    have hlen : i < rs.length := by rw [hrs, parallelExpected_length]; exact hi
    have hgi : rs.get ⟨i, hlen⟩ =
        (agentOf (keys.get ⟨i, hi⟩)).execute env.jsonParse (env.client (st.calls + i)) :=
      parallelExpected_get env keys st.calls i hi
    have hria : rs.get ⟨i, hlen⟩ = a.execute env.jsonParse (env.client (st.calls + i)) := by
      rw [hgi, agentOf_eq hag]
    have hmem : rs.get ⟨i, hlen⟩ ∈ rs := List.get_mem rs i hlen
    have hout := objGet_foldl_mem rs [] (rs.get ⟨i, hlen⟩) hrolesnodup hmem
    rw [hria] at hout
    rw [BaseAgent.execute_role] at hout
    exact hout

/-- Oracle for the C4 witness: the first branch fails, the second succeeds. -/
def envC4 : Env :=
  { jsonParse := demoParse,
    client := fun n => if n == 0 then ClientResult.err "boom" else ClientResult.ok "PROFILE" 1 1 }

/-- Witness for C4: scout and profiler in parallel, where the scout call
fails and the profiler call succeeds — both run, success is the (false)
conjunction, and the profiler's output is present under its role. -/
theorem C4_witness :
    ∃ pr st',
      executeParallel envC4 ["scout", "profiler"] st0 = (Except.ok pr, st')
      ∧ st'.calls = st0.calls + (["scout", "profiler"] : List String).length
      ∧ histAgents st'.history = histAgents st0.history ++ ["scout", "profiler"]
      ∧ pr.success = (List.range (["scout", "profiler"] : List String).length).all
          (fun i => (envC4.client (st0.calls + i)).isOk)
      ∧ ∀ (i : Nat) (hi : i < (["scout", "profiler"] : List String).length) (a : BaseAgent),
          agents ((["scout", "profiler"] : List String).get ⟨i, hi⟩) = some a →
          (envC4.client (st0.calls + i)).isOk = true →
          objGet pr.outputs a.role =
            some (a.execute envC4.jsonParse (envC4.client (st0.calls + i))).output :=
  C4_parallel_no_short_circuit envC4 ["scout", "profiler"] st0 (by decide) (by decide)

/-! ## C7 -/

/-- Evaluating a bind whose first computation is known. -/
theorem M.bind_ok {α β : Type} (m : M α) (f : α → M β) (st st2 : OrchState) (a : α)
    (h : m st = (Except.ok a, st2)) : (m >>= f) st = f a st2 := by
  show M.bind m f st = f a st2
  unfold M.bind
  rw [h]

/-- Evaluating a bind whose first computation is a known throw. -/
theorem M.bind_error {α β : Type} (m : M α) (f : α → M β) (st st2 : OrchState) (e : String)
    (h : m st = (Except.error e, st2)) : (m >>= f) st = (Except.error e, st2) := by
  show M.bind m f st = (Except.error e, st2)
  unfold M.bind
  rw [h]

/-- Binding out of pure. -/
theorem M.pure_bind {α β : Type} (a : α) (f : α → M β) : (M.pure a >>= f) = f a := rfl

/-- C7: for every environment (thesis/company pair and client behaviour) in
which the scout step either fails or yields an output whose `score` compares
below 50, the sourcing workflow returns `{success: true, qualified: false}`
with the threshold-miss reason and the scout result attached, and the
profiler, valuation and compliance agents are never invoked (exactly one
history entry is appended and one oracle outcome consumed). -/
theorem C7_threshold_short_circuit (env : Env) (st : OrchState)
    (h : (scoutAgent.execute env.jsonParse (env.client st.calls)).success = false ∨
         jsLtNum ((scoutAgent.execute env.jsonParse (env.client st.calls)).output.bind
                    (fun j => j.getField "score")) 50 = true) :
    executeSourcingWorkflow env st =
      (Except.ok
        { success := true, qualified := false,
          reason := some "Did not meet minimum score threshold",
          scoutResult := some (scoutAgent.execute env.jsonParse (env.client st.calls)),
          results := none, summary := none },
       { history := st.history ++
           [{ agent := "scout",
              success := (scoutAgent.execute env.jsonParse (env.client st.calls)).success,
              executionTime := (scoutAgent.execute env.jsonParse (env.client st.calls)).executionTime }],
         calls := st.calls + 1 }) := by
  have heval := executeAgent_known env "scout" scoutAgent st rfl
  unfold executeSourcingWorkflow
  rw [M.bind_ok _ _ _ _ _ heval]
  simp only []
  by_cases hs : (scoutAgent.execute env.jsonParse (env.client st.calls)).success = false
  · rw [if_pos hs]
    rfl
  · have hsucc : (scoutAgent.execute env.jsonParse (env.client st.calls)).success = true := by
      revert hs; cases (scoutAgent.execute env.jsonParse (env.client st.calls)).success <;> simp
    have hlt : jsLtNum ((scoutAgent.execute env.jsonParse (env.client st.calls)).output.bind
                  (fun j => j.getField "score")) 50 = true := by
      rcases h with hf | hlt
      · exact absurd hf hs
      · exact hlt
    obtain ⟨j, hj, hnn⟩ :=
      BaseAgent.execute_output_of_success scoutAgent env.jsonParse (env.client st.calls) hsucc
    rw [hj, Option.some_bind] at hlt
    rw [if_neg hs, hj, jsGetFieldM_some j "score" hnn]
    simp only [M.pure_bind]
    rw [hlt]
    rfl

/-- Oracle for the C7 witness: the scout call parses to a score of 10. -/
def envC7 : Env := { jsonParse := demoParse, client := fun _ => ClientResult.ok "SCOUT_LOW" 1 1 }

/-- Witness for C7: a concrete scout score of 10 takes the threshold exit
after a single agent invocation. -/
theorem C7_witness :
    executeSourcingWorkflow envC7 st0 =
      (Except.ok
        { success := true, qualified := false,
          reason := some "Did not meet minimum score threshold",
          scoutResult := some (scoutAgent.execute envC7.jsonParse (envC7.client st0.calls)),
          results := none, summary := none },
       { history := st0.history ++
           [{ agent := "scout",
              success := (scoutAgent.execute envC7.jsonParse (envC7.client st0.calls)).success,
              executionTime := (scoutAgent.execute envC7.jsonParse (envC7.client st0.calls)).executionTime }],
         calls := st0.calls + 1 }) :=
  C7_threshold_short_circuit envC7 st0 (Or.inr rfl)

/-! ## C8 -/

/-- The runner result of agent `a` when its generation call is the `n`-th
oracle outcome. -/
def callResult (env : Env) (a : BaseAgent) (n : Nat) : ExecResult :=
  a.execute env.jsonParse (env.client n)

/-- C8: for every environment in which the scout step succeeds with a score
not below 50 and the compliance step succeeds with `approved` equal to
`false`, the sourcing workflow still invokes the valuation agent (its history
entry is appended and its oracle outcome consumed — the sunk-cost behaviour)
and returns `qualified: false` with the compliance result (carrying the
recorded violations) attached. -/
theorem C8_sunk_cost_valuation (env : Env) (st : OrchState)
    (h0 : (callResult env scoutAgent st.calls).success = true)
    (h0s : jsLtNum ((callResult env scoutAgent st.calls).output.bind
              (fun j => j.getField "score")) 50 = false)
    (h3 : (callResult env complianceAgent (st.calls + 3)).success = true)
    (h3a : (callResult env complianceAgent (st.calls + 3)).output.bind
              (fun j => j.getField "approved") = some (Json.bool false)) :
    executeSourcingWorkflow env st =
      (Except.ok
        { success := true, qualified := false, reason := some "Failed compliance checks",
          scoutResult := none,
          results := some { scout := callResult env scoutAgent st.calls,
                            profiler := callResult env profilerAgent (st.calls + 1),
                            valuation := none,
                            compliance := callResult env complianceAgent (st.calls + 3) },
          summary := none },
       { history := st.history ++
           [{ agent := "scout", success := (callResult env scoutAgent st.calls).success,
              executionTime := (callResult env scoutAgent st.calls).executionTime },
            { agent := "profiler", success := (callResult env profilerAgent (st.calls + 1)).success,
              executionTime := (callResult env profilerAgent (st.calls + 1)).executionTime },
            { agent := "valuation", success := (callResult env valuationAgent (st.calls + 2)).success,
              executionTime := (callResult env valuationAgent (st.calls + 2)).executionTime },
            { agent := "compliance", success := (callResult env complianceAgent (st.calls + 3)).success,
              executionTime := (callResult env complianceAgent (st.calls + 3)).executionTime }],
         calls := st.calls + 4 }) := by
  have hs : ¬ (scoutAgent.execute env.jsonParse (env.client st.calls)).success = false := by
    intro hfalse
    rw [show (scoutAgent.execute env.jsonParse (env.client st.calls)) =
          callResult env scoutAgent st.calls from rfl, h0] at hfalse
    exact Bool.noConfusion hfalse
  obtain ⟨j0, hj0, hnn0⟩ :=
    BaseAgent.execute_output_of_success scoutAgent env.jsonParse (env.client st.calls) h0
  have hlt0 : jsLtNum (j0.getField "score") 50 = false := by
    rw [show (callResult env scoutAgent st.calls).output =
          (scoutAgent.execute env.jsonParse (env.client st.calls)).output from rfl,
        hj0, Option.some_bind] at h0s
    exact h0s
  unfold executeSourcingWorkflow
  rw [M.bind_ok _ _ _ _ _ (executeAgent_known env "scout" scoutAgent st rfl)]
  simp only []
  rw [if_neg hs, hj0, jsGetFieldM_some j0 "score" hnn0]
  simp only [M.pure_bind]
  rw [hlt0]
  simp only [Bool.false_eq_true, if_false]
  rw [M.bind_ok _ _ _ _ _ (executeAgent_known env "profiler" profilerAgent _ rfl)]
  simp only []
  rw [M.bind_ok _ _ _ _ _ (executeAgent_known env "valuation" valuationAgent _ rfl)]
  simp only []
  rw [M.bind_ok _ _ _ _ _ (executeAgent_known env "compliance" complianceAgent _ rfl)]
  simp only []
  obtain ⟨j3, hj3, hnn3⟩ :=
    BaseAgent.execute_output_of_success complianceAgent env.jsonParse (env.client (st.calls + 3)) h3
  have happ : j3.getField "approved" = some (Json.bool false) := by
    rw [show (callResult env complianceAgent (st.calls + 3)).output =
          (complianceAgent.execute env.jsonParse (env.client (st.calls + 3))).output from rfl,
        hj3, Option.some_bind] at h3a
    exact h3a
  rw [show st.calls + 1 + 1 + 1 + 1 = st.calls + 4 from by omega,
      show st.calls + 1 + 1 + 1 = st.calls + 3 from by omega,
      show st.calls + 1 + 1 = st.calls + 2 from by omega]
  rw [hj3, jsGetFieldM_some j3 "approved" hnn3]
  simp only [M.pure_bind]
  rw [happ]
  simp only [List.append_assoc]
  rfl

/-- Oracle for the C8 witness: score 80, then profile, valuation, and a
compliance denial. -/
def envC8 : Env :=
  { jsonParse := demoParse,
    client := fun n =>
      if n == 0 then ClientResult.ok "SCOUT_OK" 1 1
      else if n == 1 then ClientResult.ok "PROFILE" 1 1
      else if n == 2 then ClientResult.ok "VALUE" 1 1
      else ClientResult.ok "DENIED" 1 1 }

/-- Witness for C8: a concrete qualified-score run with a compliance denial
consumes all four oracle outcomes (valuation included) and reports the
compliance failure. -/
theorem C8_witness :
    executeSourcingWorkflow envC8 st0 =
      (Except.ok
        { success := true, qualified := false, reason := some "Failed compliance checks",
          scoutResult := none,
          results := some { scout := callResult envC8 scoutAgent st0.calls,
                            profiler := callResult envC8 profilerAgent (st0.calls + 1),
                            valuation := none,
                            compliance := callResult envC8 complianceAgent (st0.calls + 3) },
          summary := none },
       { history := st0.history ++
           [{ agent := "scout", success := (callResult envC8 scoutAgent st0.calls).success,
              executionTime := (callResult envC8 scoutAgent st0.calls).executionTime },
            { agent := "profiler", success := (callResult envC8 profilerAgent (st0.calls + 1)).success,
              executionTime := (callResult envC8 profilerAgent (st0.calls + 1)).executionTime },
            { agent := "valuation", success := (callResult envC8 valuationAgent (st0.calls + 2)).success,
              executionTime := (callResult envC8 valuationAgent (st0.calls + 2)).executionTime },
            { agent := "compliance", success := (callResult envC8 complianceAgent (st0.calls + 3)).success,
              executionTime := (callResult envC8 complianceAgent (st0.calls + 3)).executionTime }],
         calls := st0.calls + 4 }) :=
  C8_sunk_cost_valuation envC8 st0 rfl rfl rfl rfl

/-! ## C10 -/

/-- Reading a property of `undefined` throws. -/
theorem jsGetFieldM_none (k : String) :
    jsGetFieldM none k =
      M.throw ("TypeError: cannot read properties of undefined (reading " ++ k ++ ")") := rfl

/-- Reading a property of `null` throws. -/
theorem jsGetFieldM_null (k : String) :
    jsGetFieldM (some Json.null) k =
      M.throw ("TypeError: cannot read properties of null (reading " ++ k ++ ")") := rfl

/-- A throw short-circuits a bind, keeping the state. -/
theorem M.throw_bind {α β : Type} (e : String) (f : α → M β) (st : OrchState) :
    ((M.throw e : M α) >>= f) st = (Except.error e, st) := rfl

/-- Spreading an array. -/
theorem jsSpread_arr (xs : List Json) : jsSpread (some (Json.arr xs)) = M.pure xs := rfl

/-- Spreading a string. -/
theorem jsSpread_str (s : String) :
    jsSpread (some (Json.str s)) =
      M.pure (s.data.map fun c => Json.str (String.mk [c])) := rfl

/-- Spreading `undefined` throws. -/
theorem jsSpread_undef : jsSpread none = M.throw "TypeError: value is not iterable" := rfl

/-- Spreading `null` throws. -/
theorem jsSpread_null : jsSpread (some Json.null) = M.throw "TypeError: value is not iterable" := rfl

/-- Spreading a boolean throws. -/
theorem jsSpread_bool (b : Bool) :
    jsSpread (some (Json.bool b)) = M.throw "TypeError: value is not iterable" := rfl

/-- Spreading a number throws. -/
theorem jsSpread_num (n : Int) :
    jsSpread (some (Json.num n)) = M.throw "TypeError: value is not iterable" := rfl

/-- Spreading a plain object throws. -/
theorem jsSpread_obj (fs : List (String × Json)) :
    jsSpread (some (Json.obj fs)) = M.throw "TypeError: value is not iterable" := rfl

/-- Binding preserving computations preserves the state. -/
theorem M.pres_bind {α β : Type} {m : M α} {f : α → M β}
    (hm : ∀ st, (m st).2 = st) (hf : ∀ a st, (f a st).2 = st) :
    ∀ st, ((m >>= f) st).2 = st := by
  intro st
  show (M.bind m f st).2 = st
  unfold M.bind
  cases hms : m st with
  | mk r st2 =>
    have h2 : st2 = st := by rw [← hm st, hms]
    cases r with
    | ok a => rw [h2]; exact hf a st
    | error e => simpa using h2

/-- `jsMapFieldList` never mutates the state. -/
theorem jsMapFieldList_pres (k : String) :
    ∀ (xs : List Json) (st : OrchState), (jsMapFieldList k xs st).2 = st := by
  intro xs
  induction xs with
  | nil => intro st; rfl
  | cons x rest ih =>
    intro st
    simp only [jsMapFieldList]
    cases x with
    | null => rfl
    | bool b => exact M.pres_bind ih (fun r st => rfl) st
    | num n => exact M.pres_bind ih (fun r st => rfl) st
    | str s2 => exact M.pres_bind ih (fun r st => rfl) st
    | arr ys => exact M.pres_bind ih (fun r st => rfl) st
    | obj fs => exact M.pres_bind ih (fun r st => rfl) st

/-- `jsArrMapField` never mutates the state. -/
theorem jsArrMapField_pres (v : Option Json) (k : String) :
    ∀ st, (jsArrMapField v k st).2 = st := by
  cases v with
  | none => intro st; rfl
  | some j =>
    cases j with
    | arr xs => exact jsMapFieldList_pres k xs
    | null => intro st; rfl
    | bool b => intro st; rfl
    | num n => intro st; rfl
    | str s => intro st; rfl
    | obj fs => intro st; rfl

/-- The state component of the final bind-into-pure. -/
theorem M.bind_pure_snd {α β : Type} (m : M α) (g : α → β) (st : OrchState) :
    ((m >>= fun a => M.pure (g a)) st).2 = (m st).2 := by
  show (M.bind m _ st).2 = (m st).2
  unfold M.bind
  cases m st with
  | mk r st2 => cases r <;> rfl

/-- The value component of the final bind-into-pure, on success. -/
theorem M.bind_pure_fst_ok {α β : Type} (m : M α) (g : α → β) (st : OrchState) (res : β)
    (h : ((m >>= fun a => M.pure (g a)) st).1 = Except.ok res) : ∃ a, res = g a := by
  rw [show ((m >>= fun a => M.pure (g a)) st) =
        (match m st with
         | (Except.ok a, st2) => ((M.pure (g a) : M β) st2)
         | (Except.error e, st2) => (Except.error e, st2)) from rfl] at h
  cases hms : m st with
  | mk r st2 =>
    rw [hms] at h
    cases r with
    | ok a => exact ⟨a, Except.ok.inj h |>.symm⟩
    | error e => exact absurd h (by simp)

/-- `.map` on `undefined` throws. -/
theorem jsArrMapField_undef (k : String) :
    jsArrMapField none k = M.throw "TypeError: map is not a function" := rfl

/-- `.map` on an array maps over its elements. -/
theorem jsArrMapField_arr (k : String) (xs : List Json) :
    jsArrMapField (some (Json.arr xs)) k = jsMapFieldList k xs := rfl

/-- Inverting a successful pure computation. -/
theorem M.pure_ok_inv {α : Type} (a : α) (st : OrchState) (res : α)
    (h : ((M.pure a : M α) st).1 = Except.ok res) : res = a := by
  have hr : ((M.pure a : M α) st).1 = Except.ok a := rfl
  rw [hr] at h
  exact (Except.ok.inj h).symm

/-- C10: if the scout step of the sourcing workflow succeeds but its output
carries no numeric `score` field (for example the unstructured fallback
wrapper), the workflow does NOT take the not-qualified threshold exit — the
comparison of the missing score against 50 is false — and proceeds to invoke
the profiler, valuation and compliance agents (four oracle outcomes consumed,
four history entries appended), whatever happens afterwards. -/
theorem C10_missing_score_proceeds (env : Env) (st : OrchState)
    (h0 : (callResult env scoutAgent st.calls).success = true)
    (hscore : jsToNumber ((callResult env scoutAgent st.calls).output.bind
                 (fun j => j.getField "score")) = none) :
    (executeSourcingWorkflow env st).2.calls = st.calls + 4
    ∧ histAgents (executeSourcingWorkflow env st).2.history =
        histAgents st.history ++ ["scout", "profiler", "valuation", "compliance"]
    ∧ ∀ res, (executeSourcingWorkflow env st).1 = Except.ok res →
        res.reason ≠ some "Did not meet minimum score threshold" := by
  have hs : ¬ (scoutAgent.execute env.jsonParse (env.client st.calls)).success = false := by
    intro hfalse
    rw [show (scoutAgent.execute env.jsonParse (env.client st.calls)) =
          callResult env scoutAgent st.calls from rfl, h0] at hfalse
    exact Bool.noConfusion hfalse
  obtain ⟨j0, hj0, hnn0⟩ :=
    BaseAgent.execute_output_of_success scoutAgent env.jsonParse (env.client st.calls) h0
  have hlt0 : jsLtNum (j0.getField "score") 50 = false := by
    rw [show (callResult env scoutAgent st.calls).output =
          (scoutAgent.execute env.jsonParse (env.client st.calls)).output from rfl,
        hj0, Option.some_bind] at hscore
    unfold jsLtNum
    rw [hscore]
  unfold executeSourcingWorkflow
  rw [M.bind_ok _ _ _ _ _ (executeAgent_known env "scout" scoutAgent st rfl)]
  simp only []
  rw [if_neg hs, hj0, jsGetFieldM_some j0 "score" hnn0]
  simp only [M.pure_bind]
  rw [hlt0]
  simp only [Bool.false_eq_true, if_false]
  rw [M.bind_ok _ _ _ _ _ (executeAgent_known env "profiler" profilerAgent _ rfl)]
  simp only []
  rw [M.bind_ok _ _ _ _ _ (executeAgent_known env "valuation" valuationAgent _ rfl)]
  simp only []
  rw [M.bind_ok _ _ _ _ _ (executeAgent_known env "compliance" complianceAgent _ rfl)]
  simp only []
  rw [show st.calls + 1 + 1 + 1 + 1 = st.calls + 4 from by omega,
      show st.calls + 1 + 1 + 1 = st.calls + 3 from by omega,
      show st.calls + 1 + 1 = st.calls + 2 from by omega]
  rcases houtc : (complianceAgent.execute env.jsonParse (env.client (st.calls + 3))).output
    with _ | j3
  · rw [jsGetFieldM_none, M.throw_bind]
    exact ⟨rfl, by simp [histAgents], fun res h => Except.noConfusion h⟩
  · by_cases hj3n : j3 = Json.null
    · subst hj3n
      rw [jsGetFieldM_null, M.throw_bind]
      exact ⟨rfl, by simp [histAgents], fun res h => Except.noConfusion h⟩
    · rw [jsGetFieldM_some j3 "approved" hj3n]
      simp only [M.pure_bind]
      by_cases happ : jsTruthy (j3.getField "approved") = false
      · rw [if_pos happ]
        refine ⟨rfl, by simp [histAgents, M.pure], ?_⟩
        intro res h
        rw [M.pure_ok_inv _ _ _ h]
        simp
      · rw [if_neg happ]
        rcases houtv : (valuationAgent.execute env.jsonParse (env.client (st.calls + 2))).output
          with _ | jv
        · rw [jsGetFieldM_none, M.throw_bind]
          exact ⟨rfl, by simp [histAgents], fun res h => Except.noConfusion h⟩
        · by_cases hjvn : jv = Json.null
          · subst hjvn
            rw [jsGetFieldM_null, M.throw_bind]
            exact ⟨rfl, by simp [histAgents], fun res h => Except.noConfusion h⟩
          · rw [jsGetFieldM_some jv "estimated_value_range" hjvn]
            simp only [M.pure_bind]
            rw [jsGetFieldM_some j0 "top_signals" hnn0]
            simp only [M.pure_bind]
            rw [jsGetFieldM_some j0 "risks" hnn0]
            simp only [M.pure_bind]
            rcases hrv : j0.getField "risks" with _ | jr
            · rw [jsSpread_undef, M.throw_bind]
              exact ⟨rfl, by simp [histAgents], fun res h => Except.noConfusion h⟩
            · cases jr with
              | null =>
                rw [jsSpread_null, M.throw_bind]
                exact ⟨rfl, by simp [histAgents], fun res h => Except.noConfusion h⟩
              | bool b1 =>
                rw [jsSpread_bool, M.throw_bind]
                exact ⟨rfl, by simp [histAgents], fun res h => Except.noConfusion h⟩
              | num n1 =>
                rw [jsSpread_num, M.throw_bind]
                exact ⟨rfl, by simp [histAgents], fun res h => Except.noConfusion h⟩
              | obj fs1 =>
                rw [jsSpread_obj, M.throw_bind]
                exact ⟨rfl, by simp [histAgents], fun res h => Except.noConfusion h⟩
              | arr xs1 =>
                rw [jsSpread_arr]
                simp only [M.pure_bind]
                rw [jsGetFieldM_some j3 "violations" hj3n]
                simp only [M.pure_bind]
                rcases hvv : j3.getField "violations" with _ | jv2
                · rw [jsArrMapField_undef, M.throw_bind]
                  exact ⟨rfl, by simp [histAgents], fun res h => Except.noConfusion h⟩
                · cases jv2 with
                  | arr xs2 =>
                    rw [jsArrMapField_arr]
                    refine ⟨?_, ?_, ?_⟩
                    · rw [M.bind_pure_snd, jsMapFieldList_pres]
                    · rw [M.bind_pure_snd, jsMapFieldList_pres]
                      simp [histAgents]
                    · intro res h
                      obtain ⟨a, ha⟩ := M.bind_pure_fst_ok _ _ _ _ h
                      rw [ha]
                      simp
                  | null =>
                    rw [show jsArrMapField (some Json.null) "details" =
                          M.throw "TypeError: map is not a function" from rfl, M.throw_bind]
                    exact ⟨rfl, by simp [histAgents], fun res h => Except.noConfusion h⟩
                  | bool b2 =>
                    rw [show jsArrMapField (some (Json.bool b2)) "details" =
                          M.throw "TypeError: map is not a function" from rfl, M.throw_bind]
                    exact ⟨rfl, by simp [histAgents], fun res h => Except.noConfusion h⟩
                  | num n2 =>
                    rw [show jsArrMapField (some (Json.num n2)) "details" =
                          M.throw "TypeError: map is not a function" from rfl, M.throw_bind]
                    exact ⟨rfl, by simp [histAgents], fun res h => Except.noConfusion h⟩
                  | str s2 =>
                    rw [show jsArrMapField (some (Json.str s2)) "details" =
                          M.throw "TypeError: map is not a function" from rfl, M.throw_bind]
                    exact ⟨rfl, by simp [histAgents], fun res h => Except.noConfusion h⟩
                  | obj fs2 =>
                    rw [show jsArrMapField (some (Json.obj fs2)) "details" =
                          M.throw "TypeError: map is not a function" from rfl, M.throw_bind]
                    exact ⟨rfl, by simp [histAgents], fun res h => Except.noConfusion h⟩
              | str s1 =>
                rw [jsSpread_str]
                simp only [M.pure_bind]
                rw [jsGetFieldM_some j3 "violations" hj3n]
                simp only [M.pure_bind]
                rcases hvv : j3.getField "violations" with _ | jv2
                · rw [jsArrMapField_undef, M.throw_bind]
                  exact ⟨rfl, by simp [histAgents], fun res h => Except.noConfusion h⟩
                · cases jv2 with
                  | arr xs2 =>
                    rw [jsArrMapField_arr]
                    refine ⟨?_, ?_, ?_⟩
                    · rw [M.bind_pure_snd, jsMapFieldList_pres]
                    · rw [M.bind_pure_snd, jsMapFieldList_pres]
                      simp [histAgents]
                    · intro res h
                      obtain ⟨a, ha⟩ := M.bind_pure_fst_ok _ _ _ _ h
                      rw [ha]
                      simp
                  | null =>
                    rw [show jsArrMapField (some Json.null) "details" =
                          M.throw "TypeError: map is not a function" from rfl, M.throw_bind]
                    exact ⟨rfl, by simp [histAgents], fun res h => Except.noConfusion h⟩
                  | bool b2 =>
                    rw [show jsArrMapField (some (Json.bool b2)) "details" =
                          M.throw "TypeError: map is not a function" from rfl, M.throw_bind]
                    exact ⟨rfl, by simp [histAgents], fun res h => Except.noConfusion h⟩
                  | num n2 =>
                    rw [show jsArrMapField (some (Json.num n2)) "details" =
                          M.throw "TypeError: map is not a function" from rfl, M.throw_bind]
                    exact ⟨rfl, by simp [histAgents], fun res h => Except.noConfusion h⟩
                  | str s2 =>
                    rw [show jsArrMapField (some (Json.str s2)) "details" =
                          M.throw "TypeError: map is not a function" from rfl, M.throw_bind]
                    exact ⟨rfl, by simp [histAgents], fun res h => Except.noConfusion h⟩
                  | obj fs2 =>
                    rw [show jsArrMapField (some (Json.obj fs2)) "details" =
                          M.throw "TypeError: map is not a function" from rfl, M.throw_bind]
                    exact ⟨rfl, by simp [histAgents], fun res h => Except.noConfusion h⟩

/-- Oracle for the C10 witness: the scout call succeeds but its text is
unparseable, so its output is the fallback wrapper with no score field. -/
def envC10 : Env :=
  { jsonParse := demoParse,
    client := fun n =>
      if n == 0 then ClientResult.ok "garbled scout text" 1 1
      else if n == 1 then ClientResult.ok "PROFILE" 1 1
      else if n == 2 then ClientResult.ok "VALUE" 1 1
      else ClientResult.ok "APPROVED" 1 1 }

/-- Witness for C10: with a fallback-wrapper scout output, the workflow runs
all four agents instead of taking the threshold exit. -/
theorem C10_witness :
    (executeSourcingWorkflow envC10 st0).2.calls = st0.calls + 4
    ∧ histAgents (executeSourcingWorkflow envC10 st0).2.history =
        histAgents st0.history ++ ["scout", "profiler", "valuation", "compliance"]
    ∧ ∀ res, (executeSourcingWorkflow envC10 st0).1 = Except.ok res →
        res.reason ≠ some "Did not meet minimum score threshold" :=
  C10_missing_score_proceeds envC10 st0 rfl rfl

/-! ## C2 -/

/-- Oracle exhibiting the C2 failure: scout scores 80, profiler and valuation
succeed, and the compliance generation call fails (e.g. a network error). -/
def envC2 : Env :=
  { jsonParse := demoParse,
    client := fun n =>
      if n == 0 then ClientResult.ok "SCOUT_OK" 1 1
      else if n == 1 then ClientResult.ok "PROFILE" 1 1
      else if n == 2 then ClientResult.ok "VALUE" 1 1
      else ClientResult.err "network error" }

/-- C2: evaluation of the sourcing workflow at the failing input. The
compliance runner converts its transport failure to a value (success=false,
output absent), but the workflow then reads `.approved` off the absent output
without a success check, so the invocation terminates with an uncaught
TypeError after all four agents ran — contradicting the claim that nothing
propagates as an uncaught exception through workflow composition. -/
theorem C2_sourcing_throws_on_compliance_failure :
    (executeSourcingWorkflow envC2 st0).1 =
      Except.error "TypeError: cannot read properties of undefined (reading approved)"
    ∧ (executeSourcingWorkflow envC2 st0).2.calls = 4 :=
  ⟨rfl, rfl⟩
